import Mathlib

/-!
Shallow embedding of `src/TaskManager.py` (a single-file CLI task manager).

The Python module holds an in-memory list of `Task` objects inside a
`TaskManager` and mirrors it to a JSON file after every mutation.  Here the
in-memory collection is a `List Task`, the JSON file contents are a
`List TaskDict` (the list of `to_dict` records), and the random
`str(uuid4())` values produced at task creation are passed in explicitly as
string parameters (the code's only source of nondeterminism).  `datetime.now()`
is likewise passed in as an explicit `today` parameter (a proleptic-Gregorian
day ordinal, matching Python's `date.toordinal`).
-/

namespace TaskForge

/-- The `Task` class of `TaskManager.py`: five string attributes
(`id`, `title`, `priority`, `due_date`, `status`). -/
structure Task where
  id : String
  title : String
  priority : String
  due_date : String
  status : String
deriving DecidableEq, Repr

/-- The dictionary produced by `Task.to_dict` / consumed by `Task.from_dict`:
a record with exactly the keys `id, title, priority, due_date, status`. -/
structure TaskDict where
  id : String
  title : String
  priority : String
  due_date : String
  status : String
deriving DecidableEq, Repr

/-- `Task.__init__`: `self.id = task_id if task_id else str(uuid4())` — a
`None` or empty (falsy) `task_id` is replaced by a freshly generated uuid
string, which is supplied here as the `freshId` parameter. -/
def Task.init (title priority due_date status : String)
    (task_id : Option String) (freshId : String) : Task :=
  { id := match task_id with
      | some s => if s = "" then freshId else s
      | none => freshId
    title := title
    priority := priority
    due_date := due_date
    status := status }

/-- `Task.to_dict`. -/
def Task.to_dict (t : Task) : TaskDict :=
  { id := t.id, title := t.title, priority := t.priority,
    due_date := t.due_date, status := t.status }

/-- `Task.from_dict`: calls the constructor with `task_id = data['id']`
(so a falsy stored id is silently replaced by a fresh uuid, `freshId`). -/
def Task.from_dict (d : TaskDict) (freshId : String) : Task :=
  Task.init d.title d.priority d.due_date d.status (some d.id) freshId

/-! ### Date parsing: `datetime.strptime(s, '%Y-%m-%d')`

CPython's `_strptime` compiles the format to the regex
`\d\d\d\d-(1[0-2]|0[1-9]|[1-9])-(3[01]|[12]\d|0[1-9]|[1-9])`, anchored at the
start and required to consume the whole string, and then the `datetime`
constructor checks `1 <= year` and `day <= days_in_month(year, month)`.
Note the year must be exactly four digits while month and day may be one or
two digits (so `2024-1-1` parses but `2024/01/01` and `24-01-01` do not). -/

/-- Numeric value of a decimal digit character. -/
def digitVal (c : Char) : Nat := c.toNat - 48

/-- Month part of the strptime regex: `1[0-2]|0[1-9]|[1-9]` (two-digit
alternatives first, exactly as in CPython's `TimeRE`).  Returns the month
value and the unconsumed characters. -/
def parseMonth : List Char → Option (Nat × List Char)
  | c1 :: c2 :: rest =>
    if c1 = '1' ∧ '0' ≤ c2 ∧ c2 ≤ '2' then some (10 + digitVal c2, rest)
    else if c1 = '0' ∧ '1' ≤ c2 ∧ c2 ≤ '9' then some (digitVal c2, rest)
    else if '1' ≤ c1 ∧ c1 ≤ '9' then some (digitVal c1, c2 :: rest)
    else none
  | [c1] => if '1' ≤ c1 ∧ c1 ≤ '9' then some (digitVal c1, []) else none
  | [] => none

/-- Day part of the strptime regex, `3[01]|[12]\d|0[1-9]|[1-9]`, which must
consume all remaining characters (strptime rejects trailing input). -/
def parseDay : List Char → Option Nat
  | [c1] => if '1' ≤ c1 ∧ c1 ≤ '9' then some (digitVal c1) else none
  | [c1, c2] =>
    if c1 = '3' ∧ '0' ≤ c2 ∧ c2 ≤ '1' then some (30 + digitVal c2)
    else if ('1' ≤ c1 ∧ c1 ≤ '2') ∧ c2.isDigit then some (10 * digitVal c1 + digitVal c2)
    else if c1 = '0' ∧ '1' ≤ c2 ∧ c2 ≤ '9' then some (digitVal c2)
    else none
  | _ => none

/-- The full `%Y-%m-%d` regex match: four year digits, `-`, month, `-`, day. -/
def parseYMD : List Char → Option (Nat × Nat × Nat)
  | y1 :: y2 :: y3 :: y4 :: '-' :: rest1 =>
    if y1.isDigit ∧ y2.isDigit ∧ y3.isDigit ∧ y4.isDigit then
      match parseMonth rest1 with
      | some (m, '-' :: rest2) =>
        match parseDay rest2 with
        | some d =>
          some (1000 * digitVal y1 + 100 * digitVal y2 + 10 * digitVal y3 + digitVal y4, m, d)
        | none => none
      | _ => none
    else none
  | _ => none

/-- Gregorian leap-year test (as in Python's `calendar.isleap`). -/
def isLeap (y : Nat) : Bool := y % 4 == 0 && (y % 100 != 0 || y % 400 == 0)

/-- Days in a month (Python's `calendar.monthrange` / `datetime` internals). -/
def daysInMonth (y m : Nat) : Nat :=
  if m = 2 then (if isLeap y then 29 else 28)
  else if m = 4 ∨ m = 6 ∨ m = 9 ∨ m = 11 then 30
  else 31

/-- `datetime.strptime(s, '%Y-%m-%d')` as a partial function: the regex match
above followed by the `datetime` constructor's range checks (`MINYEAR = 1`;
the regex already bounds the year by 9999 and the month by 12). -/
def parseDate (s : String) : Option (Nat × Nat × Nat) :=
  match parseYMD s.data with
  | some (y, m, d) => if 1 ≤ y ∧ d ≤ daysInMonth y m then some (y, m, d) else none
  | none => none

/-- Days in all full years before year `y` (Python `datetime._days_before_year`). -/
def daysBeforeYear (y : Nat) : Nat :=
  (y - 1) * 365 + (y - 1) / 4 - (y - 1) / 100 + (y - 1) / 400

/-- Days in the months of year `y` strictly before month `m`. -/
def daysBeforeMonth (y m : Nat) : Nat :=
  (List.range (m - 1)).foldl (fun acc i => acc + daysInMonth y (i + 1)) 0

/-- Python's `date.toordinal`: day 1 is 0001-01-01.  Python compares and
offsets `date` values exactly as this ordinal does. -/
def toOrdinal : Nat × Nat × Nat → Nat
  | (y, m, d) => daysBeforeYear y + daysBeforeMonth y m + d

/-- `datetime.strptime(t.due_date, '%Y-%m-%d').date().toordinal()` as a
partial function. -/
def dateOrd (s : String) : Option Nat := (parseDate s).map toOrdinal

/-- `priority in ['Low', 'Medium', 'High']`. -/
def validPriority (p : String) : Bool := p = "Low" ∨ p = "Medium" ∨ p = "High"

/-! ### The `TaskManager` operations

Each method of `TaskManager` becomes a function on the in-memory collection
`List Task`; a method that mutates `self.task_list` returns the new list.
The synchronous `save_to_file` call at the end of every successful mutation
writes `task_list.map to_dict`; persistence itself is modelled by
`save_to_file` / `load_from_file` below. -/

/-- `TaskManager._find_task`: first task whose `id` equals `task_id`. -/
def _find_task (task_id : String) (tasks : List Task) : Option Task :=
  tasks.find? (fun t => t.id == task_id)

/-- In-place mutation of the object `_find_task` returned: the list with its
first element satisfying `p` replaced by its image under `f`. -/
def modifyFirst (p : Task → Bool) (f : Task → Task) : List Task → List Task
  | [] => []
  | t :: ts => if p t then f t :: ts else t :: modifyFirst p f ts

/-- `TaskManager.add_task`: reject a priority outside `['Low','Medium','High']`
(`ValueError("Priority must be Low, Medium, or High")`), then an unparseable
due date (`ValueError("Due date must be in YYYY-MM-DD format")`); otherwise
construct `Task(title, priority, due_date)` — fresh uuid `newId`, status
`"Pending"` — append it and return it with the new list. -/
def add_task (title priority due_date newId : String) (tasks : List Task) :
    Except String (Task × List Task) :=
  if ¬ validPriority priority then .error "Priority must be Low, Medium, or High"
  else if (parseDate due_date).isNone then .error "Due date must be in YYYY-MM-DD format"
  else
    let task := Task.init title priority due_date "Pending" none newId
    .ok (task, tasks ++ [task])

/-- The unfiltered task sequence the viewing path displays
(`tasks_to_display = self.task_list`, insertion order). -/
def list_tasks (tasks : List Task) : List Task := tasks

/-- `hasattr(task, key)` for a `Task`: its five attribute names. -/
def hasattrTask (key : String) : Bool :=
  key = "id" ∨ key = "title" ∨ key = "priority" ∨ key = "due_date" ∨ key = "status"

/-- `setattr(task, key, value)` for the five attributes (identity otherwise;
`update_task` only calls it under `hasattr`). -/
def applyField (t : Task) (key value : String) : Task :=
  if key = "id" then { t with id := value }
  else if key = "title" then { t with title := value }
  else if key = "priority" then { t with priority := value }
  else if key = "due_date" then { t with due_date := value }
  else if key = "status" then { t with status := value }
  else t

/-- The validation `update_task` performs on one provided field: a `priority`
outside the three valid values, or a `due_date` `strptime` rejects, aborts the
whole call. -/
def fieldInvalid (key value : String) : Bool :=
  (key = "priority" ∧ ¬ validPriority value) ∨
    (key = "due_date" ∧ (parseDate value).isNone)

/-- The `for key, value in kwargs.items()` loop of `update_task`, acting on
the found task object: fields are validated and applied one at a time, and an
invalid field returns `False` immediately, leaving the fields already applied
in place (the object was mutated in-place). -/
def update_fields : Task → List (String × String) → Bool × Task
  | t, [] => (true, t)
  | t, (k, v) :: rest =>
    if hasattrTask k then
      if fieldInvalid k v then (false, t)
      else update_fields (applyField t k v) rest
    else update_fields t rest

/-- `TaskManager.update_task`: look up by id (`False` if absent), then run the
field loop on the found object.  `kwargs` is the ordered list of keyword
arguments (Python keeps keyword order).  Whatever the loop did to the object
is visible in the list even when the loop returns `False` part-way through. -/
def update_task (task_id : String) (kwargs : List (String × String))
    (tasks : List Task) : Bool × List Task :=
  match _find_task task_id tasks with
  | none => (false, tasks)
  | some t =>
    let r := update_fields t kwargs
    (r.1, modifyFirst (fun u => u.id == task_id) (fun _ => r.2) tasks)

/-- `TaskManager.mark_complete`: set the found task's status to `"Completed"`
and return `True`; `False` when the id is absent. -/
def mark_complete (task_id : String) (tasks : List Task) : Bool × List Task :=
  match _find_task task_id tasks with
  | none => (false, tasks)
  | some _ =>
    (true, modifyFirst (fun u => u.id == task_id) (fun t => { t with status := "Completed" }) tasks)

/-- `TaskManager.delete_task`: `list.remove` on the object `_find_task`
returned, i.e. drop the first task whose id matches; `False` when absent. -/
def delete_task (task_id : String) (tasks : List Task) : Bool × List Task :=
  match _find_task task_id tasks with
  | none => (false, tasks)
  | some _ => (true, tasks.eraseP (fun u => u.id == task_id))

/-- `TaskManager.filter_tasks`.  `today` is `datetime.now().date().toordinal()`.
The due-date branches run `strptime` on every stored due date, so one
unparseable stored date raises (modelled as `none`); otherwise the matching
tasks are returned in insertion order. -/
def filter_tasks (by_ value : String) (today : Nat) (tasks : List Task) :
    Option (List Task) :=
  if by_ = "status" then
    some (tasks.filter (fun t => t.status == value))
  else if by_ = "due_date" then
    if value = "today" then
      if tasks.all (fun t => (parseDate t.due_date).isSome) then
        some (tasks.filter (fun t => dateOrd t.due_date == some today))
      else none
    else if value = "week" then
      if tasks.all (fun t => (parseDate t.due_date).isSome) then
        some (tasks.filter (fun t =>
          match dateOrd t.due_date with
          | some o => decide (today ≤ o ∧ o ≤ today + 7)
          | none => false))
      else none
    else some []
  else some []

/-- `TaskManager.save_to_file`: the JSON file contents after a full rewrite —
the ordered list of `to_dict` records. -/
def save_to_file (tasks : List Task) : List TaskDict := tasks.map Task.to_dict

/-- `TaskManager.load_from_file` on an existing file: `from_dict` applied to
each record in order.  `fresh n` is the uuid `str(uuid4())` the constructor
would draw for the `n`-th record if that record's id were falsy. -/
def load_records : List TaskDict → (Nat → String) → List Task
  | [], _ => []
  | d :: ds, fresh => Task.from_dict d (fresh 0) :: load_records ds (fun n => fresh (n + 1))

/-- `TaskManager.load_from_file`: a missing file (`FileNotFoundError`) yields
the empty collection, otherwise the records are deserialized in order. -/
def load_from_file (file : Option (List TaskDict)) (fresh : Nat → String) : List Task :=
  match file with
  | none => []
  | some ds => load_records ds fresh

/-- A sequence of `add_task` calls, each input carrying the uuid drawn for it;
a rejected call leaves the collection unchanged (the exception propagates
before the append). -/
def add_seq : List (String × String × String × String) → List Task → List Task
  | [], tasks => tasks
  | (title, priority, due_date, newId) :: rest, tasks =>
    match add_task title priority due_date newId tasks with
    | .ok r => add_seq rest r.2
    | .error _ => add_seq rest tasks

/-- Number of tasks in the collection showing the given title, priority and
due date with status `"Pending"`. -/
def countMatching (title priority due_date : String) (tasks : List Task) : Nat :=
  (tasks.filter (fun t =>
    t.title == title && t.priority == priority && t.due_date == due_date &&
      t.status == "Pending")).length

/-! ### Helper lemmas -/

theorem applyField_id {k : String} (t : Task) (v : String) (h : k ≠ "id") :
    (applyField t k v).id = t.id := by
  unfold applyField
  rw [if_neg h]
  split <;> try split <;> try split <;> try split
  all_goals rfl

theorem applyField_not_attr {k : String} (t : Task) (v : String)
    (h : hasattrTask k = false) : applyField t k v = t := by
  unfold hasattrTask at h
  unfold applyField
  simp only [decide_eq_false_iff_not, not_or] at h
  obtain ⟨h1, h2, h3, h4, h5⟩ := h
  rw [if_neg h1, if_neg h2, if_neg h3, if_neg h4, if_neg h5]

theorem fieldInvalid_hasattr {k v : String} (h : fieldInvalid k v = true) :
    hasattrTask k = true := by
  unfold fieldInvalid at h
  unfold hasattrTask
  simp only [decide_eq_true_eq] at h ⊢
  rcases h with ⟨h, -⟩ | ⟨h, -⟩
  · exact Or.inr (Or.inr (Or.inl h))
  · exact Or.inr (Or.inr (Or.inr (Or.inl h)))

theorem update_fields_id {kwargs : List (String × String)} (t : Task)
    (h : ∀ p ∈ kwargs, p.1 ≠ "id") : ((update_fields t kwargs).2).id = t.id := by
  induction kwargs generalizing t with
  | nil => rfl
  | cons p rest ih =>
    obtain ⟨k, v⟩ := p
    have hk : k ≠ "id" := h (k, v) (List.mem_cons_self _ _)
    have hrest : ∀ q ∈ rest, q.1 ≠ "id" := fun q hq => h q (List.mem_cons_of_mem _ hq)
    unfold update_fields
    by_cases ha : hasattrTask k = true
    · rw [if_pos ha]
      by_cases hi : fieldInvalid k v = true
      · rw [if_pos hi]
      · rw [if_neg hi, ih _ hrest, applyField_id t v hk]
    · rw [if_neg ha, ih _ hrest]

theorem update_fields_partial (t : Task) (pre post : List (String × String))
    (k v : String) (hpre : ∀ p ∈ pre, fieldInvalid p.1 p.2 = false)
    (hk : fieldInvalid k v = true) :
    update_fields t (pre ++ (k, v) :: post) =
      (false, pre.foldl (fun u p => applyField u p.1 p.2) t) := by
  induction pre generalizing t with
  | nil =>
    simp only [List.nil_append, List.foldl_nil]
    unfold update_fields
    rw [if_pos (fieldInvalid_hasattr hk), if_pos hk]
  | cons p rest ih =>
    obtain ⟨k', v'⟩ := p
    have hp : fieldInvalid k' v' = false := hpre (k', v') (List.mem_cons_self _ _)
    have hrest : ∀ q ∈ rest, fieldInvalid q.1 q.2 = false :=
      fun q hq => hpre q (List.mem_cons_of_mem _ hq)
    simp only [List.cons_append, List.foldl_cons]
    unfold update_fields
    by_cases ha : hasattrTask k' = true
    · rw [if_pos ha, if_neg (by rw [hp]; exact Bool.false_ne_true)]
      exact ih _ hrest
    · rw [if_neg ha, applyField_not_attr t v' (Bool.eq_false_iff.mpr ha)]
      exact ih _ hrest

theorem find_modifyFirst {task_id : String} {tasks : List Task} {t : Task}
    (f : Task → Task) (hf : _find_task task_id tasks = some t)
    (hid : (f t).id = task_id) :
    _find_task task_id (modifyFirst (fun u => u.id == task_id) f tasks) = some (f t) := by
  induction tasks with
  | nil => simp [_find_task] at hf
  | cons u rest ih =>
    by_cases hu : u.id = task_id
    · have hfind : _find_task task_id (u :: rest) = some u := by
        simp [_find_task, List.find?_cons, hu]
      rw [hfind] at hf
      obtain rfl : u = t := Option.some.inj hf
      simp [modifyFirst, hu, _find_task, List.find?_cons, hid]
    · have hbeq : (u.id == task_id) = false := by simp [hu]
      have hfind : _find_task task_id (u :: rest) = _find_task task_id rest := by
        simp [_find_task, List.find?_cons, hbeq]
      rw [hfind] at hf
      simp only [modifyFirst, hbeq, Bool.false_eq_true, if_false]
      have := ih hf
      simp [_find_task, List.find?_cons, hbeq] at this ⊢
      exact this

theorem modifyFirst_map_id (p : Task → Bool) (f : Task → Task) (tasks : List Task)
    (h : ∀ t, p t = true → (f t).id = t.id) :
    (modifyFirst p f tasks).map Task.id = tasks.map Task.id := by
  induction tasks with
  | nil => rfl
  | cons u rest ih =>
    unfold modifyFirst
    by_cases hp : p u = true
    · rw [if_pos hp]; simp [h u hp]
    · rw [if_neg hp]; simp [ih]

theorem modifyFirst_getElem? (p : Task → Bool) (f : Task → Task) (tasks : List Task)
    (i : Nat) :
    (modifyFirst p f tasks)[i]? = tasks[i]? ∨
      ∃ t, tasks[i]? = some t ∧ (modifyFirst p f tasks)[i]? = some (f t) := by
  induction tasks generalizing i with
  | nil => exact Or.inl rfl
  | cons u rest ih =>
    by_cases hp : p u = true
    · cases i with
      | zero => exact Or.inr ⟨u, by simp, by simp [modifyFirst, hp]⟩
      | succ j => exact Or.inl (by simp [modifyFirst, hp])
    · cases i with
      | zero => exact Or.inl (by simp [modifyFirst, hp])
      | succ j =>
        rcases ih j with h | ⟨t, ht1, ht2⟩
        · exact Or.inl (by simpa [modifyFirst, hp] using h)
        · exact Or.inr ⟨t, by simpa using ht1, by simpa [modifyFirst, hp] using ht2⟩

theorem exists_find {task_id : String} {tasks : List Task}
    (h : ∃ t ∈ tasks, t.id = task_id) :
    ∃ t, _find_task task_id tasks = some t ∧ t ∈ tasks ∧ t.id = task_id := by
  obtain ⟨t0, ht0, hid0⟩ := h
  have : (tasks.find? (fun u => u.id == task_id)).isSome = true := by
    rw [List.find?_isSome]
    exact ⟨t0, ht0, by simp [hid0]⟩
  obtain ⟨t, ht⟩ := Option.isSome_iff_exists.mp this
  exact ⟨t, ht, List.mem_of_find?_eq_some ht, by
    have := List.find?_some ht
    simpa using this⟩

theorem find_eq_none {task_id : String} {tasks : List Task}
    (h : ∀ t ∈ tasks, t.id ≠ task_id) : _find_task task_id tasks = none := by
  apply List.find?_eq_none.mpr
  intro t ht
  simp [h t ht]

theorem update_task_found (task_id : String) (kwargs : List (String × String))
    (tasks : List Task) (t : Task) (hf : _find_task task_id tasks = some t) :
    update_task task_id kwargs tasks =
      ((update_fields t kwargs).1,
        modifyFirst (fun u => u.id == task_id)
          (fun _ => (update_fields t kwargs).2) tasks) := by
  unfold update_task
  rw [hf]

theorem mark_complete_found (task_id : String) (tasks : List Task) (t : Task)
    (hf : _find_task task_id tasks = some t) :
    mark_complete task_id tasks =
      (true, modifyFirst (fun u => u.id == task_id)
        (fun u => { u with status := "Completed" }) tasks) := by
  unfold mark_complete
  rw [hf]

theorem delete_task_found (task_id : String) (tasks : List Task) (t : Task)
    (hf : _find_task task_id tasks = some t) :
    delete_task task_id tasks =
      (true, tasks.eraseP (fun u => u.id == task_id)) := by
  unfold delete_task
  rw [hf]

theorem mark_complete_not_found (task_id : String) (tasks : List Task)
    (h : ∀ t ∈ tasks, t.id ≠ task_id) :
    mark_complete task_id tasks = (false, tasks) := by
  unfold mark_complete
  rw [find_eq_none h]

theorem delete_task_not_found (task_id : String) (tasks : List Task)
    (h : ∀ t ∈ tasks, t.id ≠ task_id) :
    delete_task task_id tasks = (false, tasks) := by
  unfold delete_task
  rw [find_eq_none h]

theorem eraseP_eq_filter_of_id_nodup (task_id : String) {tasks : List Task}
    (hnodup : (tasks.map Task.id).Nodup) :
    tasks.eraseP (fun u => u.id == task_id) =
      tasks.filter (fun u => !(u.id == task_id)) := by
  induction tasks with
  | nil => rfl
  | cons u rest ih =>
    simp only [List.map_cons, List.nodup_cons] at hnodup
    obtain ⟨hu, hrest⟩ := hnodup
    by_cases h : u.id = task_id
    · have hb : (u.id == task_id) = true := by simp [h]
      rw [List.eraseP_cons, List.filter_cons, hb]
      simp only [cond_true, Bool.not_true, Bool.false_eq_true, if_false]
      symm
      apply List.filter_eq_self.mpr
      intro v hv
      have hne : v.id ≠ u.id := fun e => hu (e ▸ List.mem_map_of_mem Task.id hv)
      simp [h ▸ hne]
    · have hb : (u.id == task_id) = false := by simp [h]
      rw [List.eraseP_cons, List.filter_cons, hb]
      simp only [cond_false, Bool.not_false, if_true]
      rw [ih hrest]

theorem update_task_preserves_ids (task_id : String)
    (kwargs : List (String × String)) (tasks : List Task)
    (h : "id" ∉ kwargs.map Prod.fst) :
    (update_task task_id kwargs tasks).2.map Task.id = tasks.map Task.id := by
  unfold update_task
  cases hf : _find_task task_id tasks with
  | none => rfl
  | some t =>
    simp only
    apply modifyFirst_map_id
    intro u hu
    have ht : t.id = task_id := by
      have := List.find?_some hf
      simpa using this
    have hu' : u.id = task_id := by simpa using hu
    have hkw : ∀ p ∈ kwargs, p.1 ≠ "id" := by
      intro p hp he
      exact h (he ▸ List.mem_map_of_mem Prod.fst hp)
    rw [update_fields_id t hkw, ht, hu']

theorem mark_complete_preserves_ids (task_id : String) (tasks : List Task) :
    (mark_complete task_id tasks).2.map Task.id = tasks.map Task.id := by
  unfold mark_complete
  cases hf : _find_task task_id tasks with
  | none => rfl
  | some t =>
    simp only
    exact modifyFirst_map_id _ _ _ (fun u _ => rfl)

theorem from_dict_to_dict (t : Task) (freshId : String) (h : t.id ≠ "") :
    Task.from_dict (Task.to_dict t) freshId = t := by
  unfold Task.from_dict Task.to_dict Task.init
  simp only [if_neg h]

theorem load_save_roundtrip (tasks : List Task) (fresh : Nat → String)
    (h : ∀ t ∈ tasks, t.id ≠ "") :
    load_records (save_to_file tasks) fresh = tasks := by
  induction tasks generalizing fresh with
  | nil => rfl
  | cons t rest ih =>
    have ht : t.id ≠ "" := h t (List.mem_cons_self _ _)
    have hrest : ∀ u ∈ rest, u.id ≠ "" := fun u hu => h u (List.mem_cons_of_mem _ hu)
    simp only [save_to_file, List.map_cons, load_records, from_dict_to_dict t _ ht]
    have := ih (fun n => fresh (n + 1)) hrest
    simp only [save_to_file] at this
    rw [this]

theorem add_task_ok_of_valid (title priority due_date newId : String)
    (tasks : List Task) (hp : validPriority priority = true)
    (hd : (parseDate due_date).isSome = true) :
    add_task title priority due_date newId tasks =
      .ok (Task.init title priority due_date "Pending" none newId,
        tasks ++ [Task.init title priority due_date "Pending" none newId]) := by
  unfold add_task
  have hne : ¬ ((parseDate due_date).isNone = true) := by
    cases hpd : parseDate due_date with
    | none => rw [hpd] at hd; simp at hd
    | some d => simp [hpd]
  rw [if_neg (by simp [hp]), if_neg hne]

theorem add_seq_ids (inputs : List (String × String × String × String))
    (tasks : List Task)
    (hv : ∀ i ∈ inputs, validPriority i.2.1 = true ∧ (parseDate i.2.2.1).isSome = true) :
    (add_seq inputs tasks).map Task.id =
      tasks.map Task.id ++ inputs.map (fun i => i.2.2.2) := by
  induction inputs generalizing tasks with
  | nil => simp [add_seq]
  | cons i rest ih =>
    obtain ⟨title, priority, due_date, newId⟩ := i
    obtain ⟨hp, hd⟩ := hv _ (List.mem_cons_self _ _)
    have hrest := fun j hj => hv j (List.mem_cons_of_mem _ hj)
    simp only [add_seq, add_task_ok_of_valid title priority due_date newId tasks hp hd]
    rw [ih _ hrest]
    simp [Task.init]

/-! ### Claim theorems -/

/-- C1: for every title, every priority in `{Low, Medium, High}` and every
due date that `strptime('%Y-%m-%d')` accepts, `add_task` appends exactly one
new `Task` to the end of the collection whose title/priority/due_date equal
the inputs and whose status is `"Pending"`, and returns that task; the
matching-task count of the listed collection grows by exactly one, so when no
prior task carried those fields the listing contains exactly one such task. -/
theorem add_task_appends_pending (title priority due_date newId : String)
    (tasks : List Task) (hp : validPriority priority = true)
    (hd : (parseDate due_date).isSome = true) :
    ∃ t, add_task title priority due_date newId tasks = .ok (t, tasks ++ [t]) ∧
      t.title = title ∧ t.priority = priority ∧ t.due_date = due_date ∧
      t.status = "Pending" ∧
      countMatching title priority due_date (list_tasks (tasks ++ [t])) =
        countMatching title priority due_date (list_tasks tasks) + 1 ∧
      (countMatching title priority due_date (list_tasks tasks) = 0 →
        countMatching title priority due_date (list_tasks (tasks ++ [t])) = 1) := by
  refine ⟨Task.init title priority due_date "Pending" none newId,
    add_task_ok_of_valid title priority due_date newId tasks hp hd,
    rfl, rfl, rfl, rfl, ?_, ?_⟩
  · simp [countMatching, list_tasks, List.filter_append, Task.init]
  · intro h0
    simp [countMatching, list_tasks, List.filter_append, Task.init]
    simpa [countMatching, list_tasks] using h0

theorem add_task_appends_pending_witness :
    ∃ t, add_task "Write report" "High" "2025-01-10" "uuid-1" [] =
        .ok (t, [] ++ [t]) ∧
      t.title = "Write report" ∧ t.priority = "High" ∧
      t.due_date = "2025-01-10" ∧ t.status = "Pending" ∧
      countMatching "Write report" "High" "2025-01-10" (list_tasks ([] ++ [t])) =
        countMatching "Write report" "High" "2025-01-10" (list_tasks []) + 1 ∧
      (countMatching "Write report" "High" "2025-01-10" (list_tasks []) = 0 →
        countMatching "Write report" "High" "2025-01-10" (list_tasks ([] ++ [t])) = 1) :=
  add_task_appends_pending "Write report" "High" "2025-01-10" "uuid-1" []
    (by decide) (by decide)

/-- C7 counterexample: `add_task` checks the priority first, so at
`priority = "Urgent"` and `due_date = "2024/01/01"` the due date does not
parse and yet the call fails with the `InvalidPriority` message, not the
`InvalidDate` one — refuting "fails with `InvalidDate` if and only if the
due_date does not parse". -/
theorem add_task_error_iff_cex :
    parseDate "2024/01/01" = none ∧
    add_task "t" "Urgent" "2024/01/01" "uuid-1" [] =
      .error "Priority must be Low, Medium, or High" ∧
    "Priority must be Low, Medium, or High" ≠ "Due date must be in YYYY-MM-DD format" := by
  refine ⟨by decide, rfl, by decide⟩

/-- C7 amended: `add_task` fails with the `InvalidPriority` message iff the
priority is invalid; it fails with the `InvalidDate` message iff the priority
is valid and the due date does not parse (the priority check runs first);
these are the only failures, and on failure no task is produced. -/
theorem add_task_error_spec (title priority due_date newId : String)
    (tasks : List Task) :
    (add_task title priority due_date newId tasks =
        .error "Priority must be Low, Medium, or High" ↔
      validPriority priority = false) ∧
    (add_task title priority due_date newId tasks =
        .error "Due date must be in YYYY-MM-DD format" ↔
      (validPriority priority = true ∧ parseDate due_date = none)) ∧
    ((∃ e, add_task title priority due_date newId tasks = .error e) ↔
      (validPriority priority = false ∨ parseDate due_date = none)) ∧
    (∀ task tasks', add_task title priority due_date newId tasks = .ok (task, tasks') →
      validPriority priority = true ∧ (parseDate due_date).isSome = true) := by
  by_cases hp : validPriority priority = true
  · by_cases hd : parseDate due_date = none
    · have hd' : (parseDate due_date).isNone = true := by simp [hd]
      have : add_task title priority due_date newId tasks =
          .error "Due date must be in YYYY-MM-DD format" := by
        unfold add_task
        rw [if_neg (by simp [hp]), if_pos hd']
      refine ⟨?_, ?_, ?_, ?_⟩
      · rw [this]; simp [hp]
      · rw [this]; simp [hp, hd]
      · rw [this]; simp [hd]
      · intro task tasks' hok; rw [this] at hok; exact absurd hok (by simp)
    · have hs : (parseDate due_date).isSome = true := by
        cases hpd : parseDate due_date with
        | none => exact absurd hpd hd
        | some d => simp
      have := add_task_ok_of_valid title priority due_date newId tasks hp hs
      refine ⟨?_, ?_, ?_, ?_⟩
      · rw [this]; simp [hp]
      · rw [this]; simp [hd]
      · rw [this]; simp [hp, hd]
      · intro task tasks' _; exact ⟨hp, hs⟩
  · have hp' : validPriority priority = false := Bool.eq_false_iff.mpr hp
    have : add_task title priority due_date newId tasks =
        .error "Priority must be Low, Medium, or High" := by
      unfold add_task
      rw [if_pos (by simp [hp'])]
    refine ⟨?_, ?_, ?_, ?_⟩
    · rw [this]; simp [hp']
    · rw [this]; simp [hp']
    · rw [this]; simp [hp']
    · intro task tasks' hok; rw [this] at hok; exact absurd hok (by simp)

theorem add_task_error_spec_witness :
    (add_task "t" "Urgent" "2024-01-01" "uuid-1" [] =
        .error "Priority must be Low, Medium, or High" ↔
      validPriority "Urgent" = false) ∧
    (add_task "t" "Urgent" "2024-01-01" "uuid-1" [] =
        .error "Due date must be in YYYY-MM-DD format" ↔
      (validPriority "Urgent" = true ∧ parseDate "2024-01-01" = none)) ∧
    ((∃ e, add_task "t" "Urgent" "2024-01-01" "uuid-1" [] = .error e) ↔
      (validPriority "Urgent" = false ∨ parseDate "2024-01-01" = none)) ∧
    (∀ task tasks', add_task "t" "Urgent" "2024-01-01" "uuid-1" [] = .ok (task, tasks') →
      validPriority "Urgent" = true ∧ (parseDate "2024-01-01").isSome = true) :=
  add_task_error_spec "t" "Urgent" "2024-01-01" "uuid-1" []

/-- C3 counterexample: `update_task` applies fields one at a time, so with a
valid `title` before an invalid `priority` it returns `False` and yet has
already changed the title — the update is not all-or-nothing. -/
theorem update_task_all_or_nothing_cex :
    (update_task "a" [("title", "new"), ("priority", "Urgent")]
        [⟨"a", "old", "Low", "2024-01-01", "Pending"⟩]).1 = false ∧
    (update_task "a" [("title", "new"), ("priority", "Urgent")]
        [⟨"a", "old", "Low", "2024-01-01", "Pending"⟩]).2 =
      [⟨"a", "new", "Low", "2024-01-01", "Pending"⟩] ∧
    (⟨"a", "new", "Low", "2024-01-01", "Pending"⟩ : Task) ≠
      ⟨"a", "old", "Low", "2024-01-01", "Pending"⟩ := by
  refine ⟨rfl, by decide, by decide⟩

/-- C3 amended: when the provided fields are a block of valid recognized
fields followed by the first invalid field (any priority outside the three
values or any unparseable due date) and then anything, `update_task` on a
present id returns `false`, but the task has been mutated by exactly the
fields before the invalid one — the invalid field and everything after it
are not applied, while earlier fields remain applied. -/
theorem update_task_partial_application (task_id : String)
    (pre post : List (String × String)) (k v : String) (tasks : List Task)
    (t : Task) (hf : _find_task task_id tasks = some t)
    (hpre : ∀ p ∈ pre, fieldInvalid p.1 p.2 = false)
    (hk : fieldInvalid k v = true) :
    update_task task_id (pre ++ (k, v) :: post) tasks =
      (false, modifyFirst (fun u => u.id == task_id)
        (fun _ => pre.foldl (fun u p => applyField u p.1 p.2) t) tasks) := by
  rw [update_task_found task_id _ tasks t hf,
    update_fields_partial t pre post k v hpre hk]

theorem update_task_partial_application_witness :
    update_task "a" ([("title", "new")] ++ ("priority", "Urgent") :: [])
        [⟨"a", "old", "Low", "2024-01-01", "Pending"⟩] =
      (false, modifyFirst (fun u => u.id == "a")
        (fun _ => [("title", "new")].foldl (fun u p => applyField u p.1 p.2)
          ⟨"a", "old", "Low", "2024-01-01", "Pending"⟩)
        [⟨"a", "old", "Low", "2024-01-01", "Pending"⟩]) :=
  update_task_partial_application "a" [("title", "new")] [] "priority" "Urgent"
    [⟨"a", "old", "Low", "2024-01-01", "Pending"⟩]
    ⟨"a", "old", "Low", "2024-01-01", "Pending"⟩ rfl (by decide) (by decide)

/-- C9 counterexample: `update_task` feeds any attribute name to `setattr`,
so a provided field named `"id"` really does overwrite the task's id — here
from `"a"` to `"b"` — refuting immutability of the id under `UpdateTask`. -/
theorem id_immutable_cex :
    (update_task "a" [("id", "b")]
        [⟨"a", "old", "Low", "2024-01-01", "Pending"⟩]).2.map Task.id = ["b"] ∧
    ("b" : String) ≠ "a" := by
  refine ⟨by decide, by decide⟩

/-- C9 amended: the id of every task is unchanged by `mark_complete` and by
any `update_task` call whose provided fields do not include one named
`"id"` (an explicit `"id"` field, however, is applied like any attribute). -/
theorem id_immutable_without_id_field (task_id : String)
    (kwargs : List (String × String)) (tasks : List Task)
    (h : "id" ∉ kwargs.map Prod.fst) :
    (update_task task_id kwargs tasks).2.map Task.id = tasks.map Task.id ∧
    (mark_complete task_id tasks).2.map Task.id = tasks.map Task.id :=
  ⟨update_task_preserves_ids task_id kwargs tasks h,
    mark_complete_preserves_ids task_id tasks⟩

theorem id_immutable_without_id_field_witness :
    (update_task "a" [("title", "x"), ("status", "Completed")]
        [⟨"a", "old", "Low", "2024-01-01", "Pending"⟩]).2.map Task.id =
      [⟨"a", "old", "Low", "2024-01-01", "Pending"⟩].map Task.id ∧
    (mark_complete "a" [⟨"a", "old", "Low", "2024-01-01", "Pending"⟩]).2.map Task.id =
      [⟨"a", "old", "Low", "2024-01-01", "Pending"⟩].map Task.id :=
  id_immutable_without_id_field "a" [("title", "x"), ("status", "Completed")]
    [⟨"a", "old", "Low", "2024-01-01", "Pending"⟩] (by decide)

/-- C10: `update_task` validates nothing but priority and due_date: on a
present id, a provided `status` field of any string value — or a provided
`title` of any string value, the empty string included — is applied verbatim
and the call returns `true`. -/
theorem update_task_no_status_title_validation (task_id v : String)
    (tasks : List Task) (t : Task) (hf : _find_task task_id tasks = some t) :
    (update_task task_id [("status", v)] tasks).1 = true ∧
    (∃ t', _find_task task_id (update_task task_id [("status", v)] tasks).2 = some t' ∧
      t'.status = v) ∧
    (update_task task_id [("title", v)] tasks).1 = true ∧
    (∃ t', _find_task task_id (update_task task_id [("title", v)] tasks).2 = some t' ∧
      t'.title = v) := by
  have htid : t.id = task_id := by simpa using List.find?_some hf
  have hstat : update_fields t [("status", v)] = (true, { t with status := v }) := by
    unfold update_fields update_fields
    rw [if_pos (by unfold hasattrTask; simp),
      if_neg (by unfold fieldInvalid; simp)]
    rfl
  have htitl : update_fields t [("title", v)] = (true, { t with title := v }) := by
    unfold update_fields update_fields
    rw [if_pos (by unfold hasattrTask; simp),
      if_neg (by unfold fieldInvalid; simp)]
    rfl
  refine ⟨?_, ⟨{ t with status := v }, ?_, rfl⟩, ?_, ⟨{ t with title := v }, ?_, rfl⟩⟩
  · rw [update_task_found task_id _ tasks t hf, hstat]
  · rw [update_task_found task_id _ tasks t hf, hstat]
    exact find_modifyFirst _ hf htid
  · rw [update_task_found task_id _ tasks t hf, htitl]
  · rw [update_task_found task_id _ tasks t hf, htitl]
    exact find_modifyFirst _ hf htid

theorem update_task_no_status_title_validation_witness :
    (update_task "a" [("status", "NotAStatus")]
        [⟨"a", "old", "Low", "2024-01-01", "Pending"⟩]).1 = true ∧
    (∃ t', _find_task "a" (update_task "a" [("status", "NotAStatus")]
        [⟨"a", "old", "Low", "2024-01-01", "Pending"⟩]).2 = some t' ∧
      t'.status = "NotAStatus") ∧
    (update_task "a" [("title", "NotAStatus")]
        [⟨"a", "old", "Low", "2024-01-01", "Pending"⟩]).1 = true ∧
    (∃ t', _find_task "a" (update_task "a" [("title", "NotAStatus")]
        [⟨"a", "old", "Low", "2024-01-01", "Pending"⟩]).2 = some t' ∧
      t'.title = "NotAStatus") :=
  update_task_no_status_title_validation "a" "NotAStatus"
    [⟨"a", "old", "Low", "2024-01-01", "Pending"⟩]
    ⟨"a", "old", "Low", "2024-01-01", "Pending"⟩ rfl

/-- C2 counterexample: a task whose id is the empty string does not survive
the round-trip: the stored record's falsy id makes `Task.__init__` draw a
fresh uuid on load (here modelled by the fresh string `"u1"`; real uuid4
strings are 36 characters long and in particular never empty). -/
theorem persist_load_roundtrip_cex :
    load_from_file (some (save_to_file [⟨"", "x", "Low", "2024-01-01", "Pending"⟩]))
      (fun _ => "u1") ≠ [⟨"", "x", "Low", "2024-01-01", "Pending"⟩] := by
  decide

/-- C2 amended: for every collection in which every task's id is a non-empty
string (as every uuid4-generated id is), saving and re-loading over the same
backing records reproduces the identical ordered collection — same ids,
fields and order — whatever fresh uuids the loader has on hand. -/
theorem persist_load_roundtrip (tasks : List Task) (fresh : Nat → String)
    (h : ∀ t ∈ tasks, t.id ≠ "") :
    load_from_file (some (save_to_file tasks)) fresh = tasks :=
  load_save_roundtrip tasks fresh h

theorem persist_load_roundtrip_witness :
    load_from_file (some (save_to_file
        [⟨"a", "x", "Low", "2024-01-01", "Pending"⟩,
         ⟨"b", "y", "High", "2025-12-31", "Completed"⟩])) (fun _ => "u1") =
      [⟨"a", "x", "Low", "2024-01-01", "Pending"⟩,
       ⟨"b", "y", "High", "2025-12-31", "Completed"⟩] :=
  persist_load_roundtrip
    [⟨"a", "x", "Low", "2024-01-01", "Pending"⟩,
     ⟨"b", "y", "High", "2025-12-31", "Completed"⟩] (fun _ => "u1") (by decide)

/-- C6 counterexample: `update_task` applies a provided `status` field without
validation, so it does transition a `Completed` task back to `Pending` —
refuting "no operation ever transitions a task's status from Completed back
to Pending". -/
theorem mark_complete_no_reopen_cex :
    (update_task "a" [("status", "Pending")]
        [⟨"a", "x", "Low", "2024-01-01", "Completed"⟩]).1 = true ∧
    (update_task "a" [("status", "Pending")]
        [⟨"a", "x", "Low", "2024-01-01", "Completed"⟩]).2 =
      [⟨"a", "x", "Low", "2024-01-01", "Pending"⟩] := by
  refine ⟨rfl, by decide⟩

/-- C6 amended: for a present id, `mark_complete` returns `true` and leaves
the task with that id `Completed`, whatever its previous status; calling it
twice returns `true` both times and the status stays `Completed`; for an
absent id it returns `false` and changes nothing.  `mark_complete` itself
never moves any status away from `Completed` (each position is unchanged or
set to `Completed`), but `update_task` with an explicit `status` field can
set a `Completed` task back to `Pending`. -/
theorem mark_complete_spec (task_id : String) (tasks : List Task) :
    ((∃ t ∈ tasks, t.id = task_id) →
      (mark_complete task_id tasks).1 = true ∧
      (∃ t', _find_task task_id (mark_complete task_id tasks).2 = some t' ∧
        t'.status = "Completed") ∧
      (mark_complete task_id (mark_complete task_id tasks).2).1 = true ∧
      (∃ t', _find_task task_id
          (mark_complete task_id (mark_complete task_id tasks).2).2 = some t' ∧
        t'.status = "Completed")) ∧
    ((∀ t ∈ tasks, t.id ≠ task_id) → mark_complete task_id tasks = (false, tasks)) ∧
    (∀ i : Nat, (mark_complete task_id tasks).2[i]? = tasks[i]? ∨
      ∃ t, tasks[i]? = some t ∧
        (mark_complete task_id tasks).2[i]? = some { t with status := "Completed" }) := by
  refine ⟨?_, mark_complete_not_found task_id tasks, ?_⟩
  · intro hex
    obtain ⟨t, hf, hmem, htid⟩ := exists_find hex
    have h1 := mark_complete_found task_id tasks t hf
    have hf2 : _find_task task_id (mark_complete task_id tasks).2 =
        some { t with status := "Completed" } := by
      rw [h1]
      exact find_modifyFirst _ hf htid
    have h2 := mark_complete_found task_id (mark_complete task_id tasks).2 _ hf2
    refine ⟨by rw [h1], ⟨{ t with status := "Completed" }, hf2, rfl⟩, by rw [h2], ?_⟩
    refine ⟨{ t with status := "Completed" }, ?_, rfl⟩
    rw [h2]
    exact find_modifyFirst (t := { t with status := "Completed" }) _ hf2 htid
  · intro i
    cases hf : _find_task task_id tasks with
    | none =>
      left
      unfold mark_complete
      rw [hf]
    | some t =>
      rw [mark_complete_found task_id tasks t hf]
      exact modifyFirst_getElem? _ _ tasks i

theorem mark_complete_spec_witness :
    (mark_complete "a" [⟨"a", "x", "Low", "2024-01-01", "Pending"⟩]).1 = true ∧
    (∃ t', _find_task "a"
        (mark_complete "a" [⟨"a", "x", "Low", "2024-01-01", "Pending"⟩]).2 = some t' ∧
      t'.status = "Completed") ∧
    (mark_complete "a"
        (mark_complete "a" [⟨"a", "x", "Low", "2024-01-01", "Pending"⟩]).2).1 = true ∧
    (∃ t', _find_task "a" (mark_complete "a"
        (mark_complete "a" [⟨"a", "x", "Low", "2024-01-01", "Pending"⟩]).2).2 = some t' ∧
      t'.status = "Completed") :=
  (mark_complete_spec "a" [⟨"a", "x", "Low", "2024-01-01", "Pending"⟩]).1
    ⟨⟨"a", "x", "Low", "2024-01-01", "Pending"⟩, by simp, rfl⟩

/-- C8 counterexample: with two stored tasks sharing the id `"a"` (reachable,
since `update_task` can overwrite ids), `delete_task "a"` removes only the
first and an immediately repeated `delete_task "a"` still returns `true` —
refuting the claim, which promises `false`, over arbitrary stores. -/
theorem delete_task_repeat_cex :
    (delete_task "a" [⟨"a", "x", "Low", "2024-01-01", "Pending"⟩,
        ⟨"a", "y", "High", "2024-01-02", "Pending"⟩]).1 = true ∧
    (delete_task "a" (delete_task "a"
        [⟨"a", "x", "Low", "2024-01-01", "Pending"⟩,
         ⟨"a", "y", "High", "2024-01-02", "Pending"⟩]).2).1 = true := by
  refine ⟨rfl, rfl⟩

/-- C8 amended: for every store whose ids are pairwise distinct (the data
model's invariant), if a task with the given id is present then
`delete_task` returns `true` and removes exactly that task — every other
task remains, in unchanged order — an immediately repeated call returns
`false` and changes nothing, and for an absent id it returns `false` and
leaves the collection unchanged. -/
theorem delete_task_spec (task_id : String) (tasks : List Task)
    (hnodup : (tasks.map Task.id).Nodup) :
    ((∃ t ∈ tasks, t.id = task_id) →
      (delete_task task_id tasks).1 = true ∧
      (delete_task task_id tasks).2 = tasks.filter (fun u => !(u.id == task_id)) ∧
      (delete_task task_id (delete_task task_id tasks).2).1 = false ∧
      (delete_task task_id (delete_task task_id tasks).2).2 =
        (delete_task task_id tasks).2) ∧
    ((∀ t ∈ tasks, t.id ≠ task_id) → delete_task task_id tasks = (false, tasks)) := by
  refine ⟨?_, delete_task_not_found task_id tasks⟩
  intro hex
  obtain ⟨t, hf, hmem, htid⟩ := exists_find hex
  have h1 := delete_task_found task_id tasks t hf
  have h2 : (delete_task task_id tasks).2 =
      tasks.filter (fun u => !(u.id == task_id)) := by
    rw [h1]
    exact eraseP_eq_filter_of_id_nodup task_id hnodup
  have habsent : ∀ u ∈ (delete_task task_id tasks).2, u.id ≠ task_id := by
    rw [h2]
    intro u hu
    have := (List.mem_filter.mp hu).2
    simpa using this
  have h3 := delete_task_not_found task_id _ habsent
  exact ⟨by rw [h1], h2, by rw [h3], by rw [h3]⟩

theorem delete_task_spec_witness :
    (delete_task "a" [⟨"a", "x", "Low", "2024-01-01", "Pending"⟩,
        ⟨"b", "y", "High", "2024-01-02", "Pending"⟩]).1 = true ∧
    (delete_task "a" [⟨"a", "x", "Low", "2024-01-01", "Pending"⟩,
        ⟨"b", "y", "High", "2024-01-02", "Pending"⟩]).2 =
      ([⟨"a", "x", "Low", "2024-01-01", "Pending"⟩,
        ⟨"b", "y", "High", "2024-01-02", "Pending"⟩] : List Task).filter
        (fun u => !(u.id == "a")) ∧
    (delete_task "a" (delete_task "a"
        [⟨"a", "x", "Low", "2024-01-01", "Pending"⟩,
         ⟨"b", "y", "High", "2024-01-02", "Pending"⟩]).2).1 = false ∧
    (delete_task "a" (delete_task "a"
        [⟨"a", "x", "Low", "2024-01-01", "Pending"⟩,
         ⟨"b", "y", "High", "2024-01-02", "Pending"⟩]).2).2 =
      (delete_task "a" [⟨"a", "x", "Low", "2024-01-01", "Pending"⟩,
        ⟨"b", "y", "High", "2024-01-02", "Pending"⟩]).2 :=
  (delete_task_spec "a" [⟨"a", "x", "Low", "2024-01-01", "Pending"⟩,
      ⟨"b", "y", "High", "2024-01-02", "Pending"⟩] (by decide)).1
    ⟨⟨"a", "x", "Low", "2024-01-01", "Pending"⟩, by simp, rfl⟩

theorem add_task_ok_inv {title priority due_date newId : String}
    {tasks : List Task} {task : Task} {tasks' : List Task}
    (h : add_task title priority due_date newId tasks = .ok (task, tasks')) :
    task.id = newId ∧ tasks' = tasks ++ [task] := by
  unfold add_task at h
  by_cases hp : validPriority priority = true
  · rw [if_neg (by simp [hp])] at h
    by_cases hn : (parseDate due_date).isNone = true
    · rw [if_pos hn] at h
      exact absurd h (by simp)
    · rw [if_neg hn] at h
      simp only [Except.ok.injEq, Prod.mk.injEq] at h
      obtain ⟨h1, h2⟩ := h
      constructor
      · rw [← h1]; rfl
      · rw [← h1, ← h2]
  · rw [if_pos (by simpa using hp)] at h
    exact absurd h (by simp)

/-- C4 counterexample: starting from a store with pairwise-distinct ids,
`update_task` with a field named `"id"` can copy one task's id onto another,
so `UpdateTask` does not preserve id-uniqueness. -/
theorem unique_id_invariant_cex :
    (([⟨"a", "x", "Low", "2024-01-01", "Pending"⟩,
       ⟨"b", "y", "High", "2024-01-02", "Pending"⟩] : List Task).map Task.id).Nodup ∧
    ¬ (((update_task "a" [("id", "b")]
        [⟨"a", "x", "Low", "2024-01-01", "Pending"⟩,
         ⟨"b", "y", "High", "2024-01-02", "Pending"⟩]).2.map Task.id).Nodup) := by
  refine ⟨by decide, by decide⟩

/-- C4 amended: from a store with pairwise-distinct ids, `add_task` (whenever
the uuid it draws is not already stored — which uuid4 delivers up to
collisions), `mark_complete`, `delete_task`, and any `update_task` whose
provided fields do not include one named `"id"` all preserve id-uniqueness;
and a sequence of `add_task` calls whose inputs are valid and whose drawn
uuids are fresh and pairwise distinct appends exactly those ids, leaving all
stored ids — the new ones included — pairwise distinct. -/
theorem unique_id_preserved (tasks : List Task)
    (hnodup : (tasks.map Task.id).Nodup) :
    (∀ title priority due_date newId task tasks',
        add_task title priority due_date newId tasks = .ok (task, tasks') →
        newId ∉ tasks.map Task.id → (tasks'.map Task.id).Nodup) ∧
    (∀ task_id kwargs, "id" ∉ kwargs.map Prod.fst →
        ((update_task task_id kwargs tasks).2.map Task.id).Nodup) ∧
    (∀ task_id, ((mark_complete task_id tasks).2.map Task.id).Nodup) ∧
    (∀ task_id, ((delete_task task_id tasks).2.map Task.id).Nodup) ∧
    (∀ inputs : List (String × String × String × String),
        (∀ i ∈ inputs, validPriority i.2.1 = true ∧ (parseDate i.2.2.1).isSome = true) →
        (tasks.map Task.id ++ inputs.map (fun i => i.2.2.2)).Nodup →
        (add_seq inputs tasks).map Task.id =
          tasks.map Task.id ++ inputs.map (fun i => i.2.2.2) ∧
        ((add_seq inputs tasks).map Task.id).Nodup) := by
  refine ⟨?_, ?_, ?_, ?_, ?_⟩
  · intro title priority due_date newId task tasks' hok hfresh
    obtain ⟨hid, htl⟩ := add_task_ok_inv hok
    rw [htl, List.map_append, List.map_singleton, hid]
    rw [List.nodup_append]
    exact ⟨hnodup, List.nodup_singleton _, by
      intro a ha hb
      rw [List.mem_singleton] at hb
      exact hfresh (hb ▸ ha)⟩
  · intro task_id kwargs h
    rw [update_task_preserves_ids task_id kwargs tasks h]
    exact hnodup
  · intro task_id
    rw [mark_complete_preserves_ids task_id tasks]
    exact hnodup
  · intro task_id
    unfold delete_task
    cases hf : _find_task task_id tasks with
    | none => exact hnodup
    | some t =>
      exact ((List.eraseP_sublist tasks).map Task.id).nodup hnodup
  · intro inputs hv hfresh
    have := add_seq_ids inputs tasks hv
    exact ⟨this, this ▸ hfresh⟩

theorem unique_id_preserved_witness :
    ((add_seq [("t1", "Low", "2024-01-01", "u1"), ("t2", "High", "2024-01-02", "u2")]
        [⟨"a", "x", "Low", "2024-01-01", "Pending"⟩]).map Task.id =
      ([⟨"a", "x", "Low", "2024-01-01", "Pending"⟩] : List Task).map Task.id ++
        ([("t1", "Low", "2024-01-01", "u1"),
          ("t2", "High", "2024-01-02", "u2")] : List (String × String × String × String)).map
          (fun i => i.2.2.2)) ∧
    (((add_seq [("t1", "Low", "2024-01-01", "u1"), ("t2", "High", "2024-01-02", "u2")]
        [⟨"a", "x", "Low", "2024-01-01", "Pending"⟩]).map Task.id).Nodup) :=
  (unique_id_preserved [⟨"a", "x", "Low", "2024-01-01", "Pending"⟩] (by decide)).2.2.2.2
    [("t1", "Low", "2024-01-01", "u1"), ("t2", "High", "2024-01-02", "u2")]
    (by decide) (by decide)

/-- C5: on a store whose stored due dates all parse, `filter_tasks` never
raises and returns an in-order subsequence of the collection; filtering by
`"status"` keeps exactly the tasks with that status; by `"due_date"`/`"today"`
exactly those due on the current local date; by `"due_date"`/`"week"` exactly
those due in the inclusive window `[today, today + 7]`; every other
`(by, value)` combination yields the empty sequence. -/
theorem filter_tasks_spec (by_ value : String) (today : Nat) (tasks : List Task)
    (h : ∀ t ∈ tasks, (parseDate t.due_date).isSome = true) :
    ∃ res, filter_tasks by_ value today tasks = some res ∧
      res.Sublist tasks ∧
      (by_ = "status" → ∀ t, t ∈ res ↔ t ∈ tasks ∧ t.status = value) ∧
      (by_ = "due_date" → value = "today" →
        ∀ t, t ∈ res ↔ t ∈ tasks ∧ dateOrd t.due_date = some today) ∧
      (by_ = "due_date" → value = "week" →
        ∀ t, t ∈ res ↔ t ∈ tasks ∧
          ∃ o, dateOrd t.due_date = some o ∧ today ≤ o ∧ o ≤ today + 7) ∧
      (by_ ≠ "status" → by_ ≠ "due_date" → res = []) ∧
      (by_ = "due_date" → value ≠ "today" → value ≠ "week" → res = []) := by
  have hall : tasks.all (fun t => (parseDate t.due_date).isSome) = true := by
    rw [List.all_eq_true]
    exact h
  by_cases hst : by_ = "status"
  · refine ⟨tasks.filter (fun t => t.status == value), ?_, List.filter_sublist _,
      ?_, ?_, ?_, ?_, ?_⟩
    · unfold filter_tasks
      rw [if_pos hst]
    · intro _ t
      rw [List.mem_filter]
      simp
    · intro hdd
      exact absurd (hst ▸ hdd) (by decide)
    · intro hdd
      exact absurd (hst ▸ hdd) (by decide)
    · intro hne
      exact absurd hst hne
    · intro hdd
      exact absurd (hst ▸ hdd) (by decide)
  · by_cases hdd : by_ = "due_date"
    · by_cases htd : value = "today"
      · refine ⟨tasks.filter (fun t => dateOrd t.due_date == some today), ?_,
          List.filter_sublist _, ?_, ?_, ?_, ?_, ?_⟩
        · unfold filter_tasks
          rw [if_neg hst, if_pos hdd, if_pos htd, if_pos hall]
        · intro hst'
          exact absurd (hdd ▸ hst') (by decide)
        · intro _ _ t
          rw [List.mem_filter]
          simp
        · intro _ hwk
          exact absurd (htd ▸ hwk) (by decide)
        · intro _ hne2
          exact absurd hdd hne2
        · intro _ htd'
          exact absurd htd htd'
      · by_cases hwk : value = "week"
        · refine ⟨tasks.filter (fun t =>
              match dateOrd t.due_date with
              | some o => decide (today ≤ o ∧ o ≤ today + 7)
              | none => false), ?_, List.filter_sublist _, ?_, ?_, ?_, ?_, ?_⟩
          · unfold filter_tasks
            rw [if_neg hst, if_pos hdd, if_neg htd, if_pos hwk, if_pos hall]
          · intro hst'
            exact absurd (hdd ▸ hst') (by decide)
          · intro _ htd'
            exact absurd htd' htd
          · intro _ _ t
            rw [List.mem_filter]
            cases hdo : dateOrd t.due_date with
            | none => simp [hdo]
            | some o => simp [hdo]
          · intro _ hne2
            exact absurd hdd hne2
          · intro _ _ hwk'
            exact absurd hwk hwk'
        · refine ⟨[], ?_, List.nil_sublist _, ?_, ?_, ?_, ?_, ?_⟩
          · unfold filter_tasks
            rw [if_neg hst, if_pos hdd, if_neg htd, if_neg hwk]
          · intro hst'
            exact absurd (hdd ▸ hst') (by decide)
          · intro _ htd'
            exact absurd htd' htd
          · intro _ hwk'
            exact absurd hwk' hwk
          · intro _ hne2
            exact absurd hdd hne2
          · intro _ _ _
            rfl
    · refine ⟨[], ?_, List.nil_sublist _, ?_, ?_, ?_, ?_, ?_⟩
      · unfold filter_tasks
        rw [if_neg hst, if_neg hdd]
      · intro hst'
        exact absurd hst' hst
      · intro hdd'
        exact absurd hdd' hdd
      · intro hdd'
        exact absurd hdd' hdd
      · intro _ _
        rfl
      · intro hdd'
        exact absurd hdd' hdd

theorem filter_tasks_spec_witness :
    ∃ res, filter_tasks "due_date" "week" 739261
        [⟨"1", "a", "Low", "2025-01-10", "Pending"⟩,
         ⟨"2", "b", "Low", "2025-01-13", "Pending"⟩,
         ⟨"3", "c", "Low", "2025-01-20", "Pending"⟩] = some res ∧
      res.Sublist
        [⟨"1", "a", "Low", "2025-01-10", "Pending"⟩,
         ⟨"2", "b", "Low", "2025-01-13", "Pending"⟩,
         ⟨"3", "c", "Low", "2025-01-20", "Pending"⟩] ∧
      (("due_date" : String) = "status" → ∀ t, t ∈ res ↔
        t ∈ [⟨"1", "a", "Low", "2025-01-10", "Pending"⟩,
             ⟨"2", "b", "Low", "2025-01-13", "Pending"⟩,
             ⟨"3", "c", "Low", "2025-01-20", "Pending"⟩] ∧ t.status = "week") ∧
      (("due_date" : String) = "due_date" → ("week" : String) = "today" →
        ∀ t, t ∈ res ↔
          t ∈ [⟨"1", "a", "Low", "2025-01-10", "Pending"⟩,
               ⟨"2", "b", "Low", "2025-01-13", "Pending"⟩,
               ⟨"3", "c", "Low", "2025-01-20", "Pending"⟩] ∧
            dateOrd t.due_date = some 739261) ∧
      (("due_date" : String) = "due_date" → ("week" : String) = "week" →
        ∀ t, t ∈ res ↔
          t ∈ [⟨"1", "a", "Low", "2025-01-10", "Pending"⟩,
               ⟨"2", "b", "Low", "2025-01-13", "Pending"⟩,
               ⟨"3", "c", "Low", "2025-01-20", "Pending"⟩] ∧
            ∃ o, dateOrd t.due_date = some o ∧ 739261 ≤ o ∧ o ≤ 739261 + 7) ∧
      (("due_date" : String) ≠ "status" → ("due_date" : String) ≠ "due_date" → res = []) ∧
      (("due_date" : String) = "due_date" → ("week" : String) ≠ "today" →
        ("week" : String) ≠ "week" → res = []) :=
  filter_tasks_spec "due_date" "week" 739261
    [⟨"1", "a", "Low", "2025-01-10", "Pending"⟩,
     ⟨"2", "b", "Low", "2025-01-13", "Pending"⟩,
     ⟨"3", "c", "Low", "2025-01-20", "Pending"⟩] (by decide)

end TaskForge
